import Mathlib

/-!
Verification development for the tjsdoc-docs-babylon doc generator.

The repository walks a Babylon AST and synthesizes doc objects into a DocDB
using a two-pass algorithm: the first pass classifies nodes and inserts doc
objects, deferring certain export statements into a pending queue; the second
pass reconciles the deferred export nodes against the already-inserted doc
objects.  This file shallowly embeds the decision procedures and the two-pass
pipeline of `DocGenerator` (the newest two-pass generator), together with the
older `DocGenerator.js` / `DocFactory` classification fragments where the
claims reference them, and proves properties about these embeddings.

External collaborators (tree walker, comment-tag parser, declaration finders,
DocDB query semantics) are modelled as parameters or as small executable
models that follow their documented contracts.
-/

namespace Tjsdoc

/-- A parsed documentation tag `{tagName, tagValue}` produced by the external
comment-tag parser. -/
structure Tag where
  tagName : String
  tagValue : String
deriving DecidableEq, Repr

/-- A raw AST comment node with its Babylon `type` (for example
`CommentBlock` or `CommentLine`) and its `value` text. -/
structure JComment where
  ctype : String
  value : String
deriving DecidableEq, Repr

/-- Embedding of `CommentParser.getCommentValue` (src/src/parser/CommentParser.js):
returns the comment value when the node is a `CommentBlock` whose value starts
with `*` (the JS code compares `value.charAt(0) === '*'`), else `undefined`.
`charAtZero` models JS `String.prototype.charAt(0)`, which yields the empty
string on an empty receiver. -/
def charAtZero (s : String) : String :=
  match s.data with
  | [] => ""
  | c :: _ => String.mk [c]

/-- Embedding of `CommentParser.getCommentValue`: see `charAtZero`. -/
def getCommentValue (c : JComment) : Option String :=
  if c.ctype ≠ "CommentBlock" then none
  else if charAtZero c.value = "*" then some c.value else none

/-- The claim's wording of the comment-value extractor: return the text if and
only if the type is exactly `CommentBlock` and the first character of the
value is `*`; undefined otherwise. -/
def specCommentValue (c : JComment) : Option String :=
  if c.ctype = "CommentBlock" ∧ c.value.data.head? = some '*' then some c.value else none

/- ## Tag scanning in the classifier (`_decideType`) -/

/-- The category the tag contributes in the virtual-type scan, if any. -/
def tagVirtualCat (t : Tag) : Option String :=
  if t.tagName = "@typedef" then some "VirtualTypedef"
  else if t.tagName = "@external" then some "VirtualExternal"
  else none

/-- Embedding of the leading tag loop of `_decideType` in the newest two-pass
generator (part_000): the loop returns immediately on the first `@typedef`
or `@external` tag encountered. -/
def decideTypeTagScan : List Tag → Option String
  | [] => none
  | t :: rest =>
    if t.tagName = "@typedef" then some "VirtualTypedef"
    else if t.tagName = "@external" then some "VirtualExternal"
    else decideTypeTagScan rest

/-- Embedding of the leading tag loop of `_decideType` in the older
`DocGenerator.js` variant: a linear scan over all tags where a later
`@typedef`/`@external` unconditionally overwrites the accumulator
(`let type = null; for (tag of tags) switch ...`).  The `DocFactory` variant
has the same structure with `Typedef`/`External` labels. -/
def tagScanStep (acc : Option String) (t : Tag) : Option String :=
  if t.tagName = "@typedef" then some "VirtualTypedef"
  else if t.tagName = "@external" then some "VirtualExternal"
  else acc

/-- The accumulator loop of the older variant: see `tagScanStep`. -/
def decideTypeTagScanOld (tags : List Tag) : Option String :=
  tags.foldl tagScanStep none

/-- Spec-side characterization: the category of the first `@typedef`/`@external`
tag in list order. -/
def firstVirtualTag : List Tag → Option String
  | [] => none
  | t :: rest =>
    match tagVirtualCat t with
    | some c => some c
    | none => firstVirtualTag rest

/-- Spec-side characterization: the category of the last `@typedef`/`@external`
tag in list order (a later matching tag takes precedence). -/
def lastVirtualTag : List Tag → Option String
  | [] => none
  | t :: rest =>
    match lastVirtualTag rest with
    | some c => some c
    | none => tagVirtualCat t

/- ## Class method / property classification and the Processed-Class Set -/

/-- A node on a parent chain: an identity (`id`) plus its AST `type`. -/
structure CNode where
  id : Nat
  ntype : String
deriving DecidableEq, Repr

/-- A class-member candidate node: its own AST `type` and its parent chain
(nearest ancestor first), as produced by the traversal's parent links. -/
structure MNode where
  ntype : String
  ancestors : List CNode
deriving DecidableEq, Repr

/-- Embedding of `_findUp(node, types)`: walk the parent chain upward and
return the first ancestor whose type is in `types`. -/
def findUp (types : List String) : List CNode → Option CNode
  | [] => none
  | p :: rest => if types.contains p.ntype then some p else findUp types rest

/-- The membership test performed by the older generator / factory:
`this._processedClassNodes.includes(this._findUp(node, [ClassDeclaration,
ClassExpression]))`; `includes(undefined)` is `false` because the set holds
only real class nodes. -/
def memberClassInProcessed (processed : List Nat) (ancestors : List CNode) : Bool :=
  match findUp ["ClassDeclaration", "ClassExpression"] ancestors with
  | some c => processed.contains c.id
  | none => false

/-- Embedding of `DocGenerator._decideClassMethodDefinitionType`
(src/src/generator/DocGenerator.js, same structure as
`DocFactory._decideMethodDefinitionType`): accept the method only when the
nearest enclosing class node is in the Processed-Class Set, otherwise log a
warning and discard.  The second component records whether the warning was
logged. -/
def decideClassMethodDefinitionType (processed : List Nat) (n : MNode) :
    Option String × Bool :=
  if memberClassInProcessed processed n.ancestors then (some "ClassMethod", false)
  else (none, true)

/-- Embedding of `DocGenerator._decideClassPropertyType`
(src/src/generator/DocGenerator.js): same gate for `ClassProperty` nodes. -/
def decideClassPropertyType (processed : List Nat) (n : MNode) :
    Option String × Bool :=
  if memberClassInProcessed processed n.ancestors then (some "ClassProperty", false)
  else (none, true)

/-- Embedding of the `ClassMethod` / `ClassProperty` cases of `_decideType` in
the newest two-pass generator (part_000): the node is accepted directly with
no Processed-Class Set consultation (the newest generator does not keep such
a set at all). -/
def decideTypeClassCaseNew (n : MNode) : Option String :=
  if n.ntype = "ClassMethod" then some "ClassMethod"
  else if n.ntype = "ClassProperty" then some "ClassProperty"
  else none

/- ## AST model for the two-pass generator -/

/-- The callee of a `NewExpression`: an `Identifier`, a `MemberExpression`
(of which the code reads `property.name`), or some other expression. -/
inductive JCallee where
  | ident (name : String)
  | member (propName : String)
  | otherCallee
deriving DecidableEq, Repr

/-- An initializer / right-hand-side expression, restricted to the shapes the
generator inspects. -/
inductive JExpr where
  | newExpr (callee : JCallee)
  | funcExpr (isAsync : Bool)
  | arrowFuncExpr
  | classExpr
  | identExpr (name : String)
  | otherExpr (etype : String)
deriving DecidableEq, Repr

/-- One declarator of a `VariableDeclaration`: `id.name` and optional `init`. -/
structure JDeclarator where
  idName : String
  init : Option JExpr
deriving DecidableEq, Repr

/-- An export specifier with its `type` and `exported.name`. -/
structure JSpecifier where
  specType : String
  exportedName : String
deriving DecidableEq, Repr

/-- A declaration node: a top-level statement's payload, or the `declaration`
of an export node. -/
inductive JDecl where
  | classDecl (name : String)
  | funcDecl (name : String)
  | varDecl (declarators : List JDeclarator)
  | exprIdent (name : String)
  | exprNew (callee : JCallee)
  | otherDecl (dtype : String)
deriving DecidableEq, Repr

/-- The Babylon `type` string of a declaration payload. -/
def declTypeStr : JDecl → String
  | .classDecl _ => "ClassDeclaration"
  | .funcDecl _ => "FunctionDeclaration"
  | .varDecl _ => "VariableDeclaration"
  | .exprIdent _ => "Identifier"
  | .exprNew _ => "NewExpression"
  | .otherDecl t => t

/-- JS `callee.name`: defined only for identifier callees. -/
def calleeName : JCallee → Option String
  | .ident n => some n
  | _ => none

/-- A top-level statement of the module `Program` body, with the statement's
leading comments. -/
inductive JStmt where
  | decl (d : JDecl) (leading : List JComment)
  | exportDefault (d : JDecl) (leading : List JComment)
  | exportNamed (d : Option JDecl) (specifiers : List JSpecifier)
      (leading : List JComment)
deriving DecidableEq, Repr

/-- Leading comments of a statement. -/
def stmtLeading : JStmt → List JComment
  | .decl _ l => l
  | .exportDefault _ l => l
  | .exportNamed _ _ l => l

/-- The declaration payloads reachable in a statement (for the AST-wide
declaration finders). -/
def stmtDecls : JStmt → List JDecl
  | .decl d _ => [d]
  | .exportDefault d _ => [d]
  | .exportNamed (some d) _ _ => [d]
  | .exportNamed none _ _ => []

/-- Model of the external class-declaration finder
(`tjsdoc:system:ast:class:declaration:find`, spec section 6): name-based
lookup of a class declaration in the module body; a lookup with an undefined
name finds nothing. -/
def classDeclarationFind (body : List JStmt) (name : Option String) : Bool :=
  match name with
  | none => false
  | some n =>
    (body.map stmtDecls).flatten.any fun d =>
      match d with
      | .classDecl cn => cn = n
      | _ => false

/-- Whether the declaration is a variable declaration whose first declarator
binds `name` and is initialized by a `NewExpression`. -/
def isVarNewExprNamed (name : String) : JDecl → Bool
  | .varDecl (dr :: _) =>
    dr.idName = name &&
      (match dr.init with
       | some (.newExpr _) => true
       | _ => false)
  | _ => false

/-- Model of the external finder
`tjsdoc:system:ast:variable:declaration:new:expression:find` (spec sections
4.6 / 6): the variable declaration named `name` whose initializer is a
`NewExpression`, looked up in the module body. -/
def varNewExprFind (body : List JStmt) (name : String) : Option JDecl :=
  ((body.map stmtDecls).flatten).find? (isVarNewExprNamed name)

/-- `varNode.declarations[0].init.callee.name` as read by the second pass. -/
def varDeclFirstCalleeName : JDecl → Option String
  | .varDecl (dr :: _) =>
    match dr.init with
    | some (.newExpr c) => calleeName c
    | _ => none
  | _ => none

/- ## First-pass deferral (`_isExportSecondPass` / `_traverse`) -/

/-- Embedding of `DocGenerator._isExportSecondPass` in the newest two-pass
generator (part_000): an `ExportDefaultDeclaration` is deferred when its
declaration is an `Identifier` or a `NewExpression`; an
`ExportNamedDeclaration` is deferred when it has any specifiers, or when its
`VariableDeclaration` has some declarator initialized by a `NewExpression`
whose callee name is found as a class declaration by the external finder
(`classFind`). -/
def isExportSecondPass (classFind : Option String → Bool) : JStmt → Bool
  | .exportDefault d _ =>
    (match d with
     | .exprIdent _ => true
     | .exprNew _ => true
     | _ => false)
  | .exportNamed dOpt specs _ =>
    if specs.length > 0 then true
    else
      match dOpt with
      | some (.varDecl ds) =>
        ds.any fun dr =>
          match dr.init with
          | some (.newExpr c) => classFind (calleeName c)
          | _ => false
      | _ => false
  | .decl _ _ => false

/-- The claim's wording of the deferral criterion: an
`ExportDefaultDeclaration` whose declaration is an `Identifier` or a
`NewExpression`; or an `ExportNamedDeclaration` with at least one specifier;
or an `ExportNamedDeclaration` whose `VariableDeclaration` contains some
declarator initialized by a `NewExpression` whose callee name resolves to a
class declaration of the same module. -/
def specDefer (classFind : Option String → Bool) : JStmt → Bool
  | .exportDefault d _ =>
    (match d with | .exprIdent _ => true | _ => false) ||
    (match d with | .exprNew _ => true | _ => false)
  | .exportNamed dOpt specs _ =>
    decide (1 ≤ specs.length) ||
    (match dOpt with
     | some (.varDecl ds) =>
       ds.any fun dr =>
         match dr.init with
         | some (.newExpr c) => classFind (calleeName c)
         | _ => false
     | _ => false)
  | .decl _ _ => false

/-- Embedding of the `enterNode` callback of `DocGenerator._traverse`
(part_000) at the deferral decision: when `_isExportSecondPass` holds, the
node is appended to the Pending Export Queue and `null` is returned so the
walker does not traverse the node's subtree; otherwise the node is processed
immediately by `_push`.  The result is the updated queue, whether the subtree
was skipped, and whether the node was processed immediately. -/
def firstPassEnter (classFind : Option String → Bool) (queue : List JStmt)
    (s : JStmt) : List JStmt × Bool × Bool :=
  if isExportSecondPass classFind s then (queue ++ [s], true, false)
  else (queue, false, true)

/- ## Per-node error handling during traversal -/

/-- Outcome of walking a node list under the per-node try/catch of
`_traverse` / `_traverseNew`: the nodes whose `enterNode` ran, the nodes
recorded by the invalid-code logger, and the error that propagated out of the
traversal (if any). -/
structure TraverseOutcome where
  visited : List Nat
  invalidLog : List Nat
  thrown : Option String
deriving DecidableEq, Repr

/-- Embedding of the traversal loop's catch handler: a per-node exception is
dispatched on `handleError` (`switch (this._handleError)`); the `log` case
records the node via the invalid-code logger and continues, the `throw` case
rethrows and aborts the walk, and any other value (including `undefined`, as
in the `DocGenerator.js` variant whose `resetAndTraverse` never stores the
parameter) falls through the switch, silently discarding the exception and
continuing with subsequent nodes. -/
def traverseNodes (handleError : Option String) (process : Nat → Except String Unit) :
    List Nat → TraverseOutcome
  | [] => ⟨[], [], none⟩
  | n :: rest =>
    match process n with
    | .ok _ =>
      let r := traverseNodes handleError process rest
      ⟨n :: r.visited, r.invalidLog, r.thrown⟩
    | .error e =>
      if handleError = some "log" then
        let r := traverseNodes handleError process rest
        ⟨n :: r.visited, n :: r.invalidLog, r.thrown⟩
      else if handleError = some "throw" then ⟨[n], [], some e⟩
      else
        let r := traverseNodes handleError process rest
        ⟨n :: r.visited, r.invalidLog, r.thrown⟩

/- ## Doc objects and the DocDB model -/

/-- A doc object with the fields the claims concern: identity, owning module,
`name`, `category`, `export` (here `exportFlag`, since `export` is a Lean
keyword), `importStyle`, `ignore`, the `type.types` reference list
(`typeRefs`), `description` and the driving tag list. -/
structure Doc where
  docId : Nat
  moduleID : Nat
  name : Option String
  category : String
  exportFlag : Bool
  importStyle : Option String
  ignore : Bool
  typeRefs : Option (List String)
  description : String
  tags : List Tag
deriving DecidableEq, Repr

/-- Mutate the first doc matching `p` in place (the JS second pass mutates
`found[0]` of a `DocDB.find` result, which aliases the stored record). -/
def updateFirst (p : Doc → Bool) (f : Doc → Doc) : List Doc → List Doc
  | [] => []
  | d :: rest => if p d then f d :: rest else d :: updateFirst p f rest

/-- Model of `DocDB.find({name, filePath})` (external collaborator, spec
section 6): the docs matching the name in insertion order; a query with an
undefined name matches nothing.  The pipeline processes a single file, so the
filePath key is implicit. -/
def findByName (db : List Doc) (q : Option String) : List Doc :=
  match q with
  | none => []
  | some n => db.filter fun d => d.name = some n

/-- In-place mutation of the first doc found by `findByName`. -/
def updateByName (db : List Doc) (q : Option String) (f : Doc → Doc) : List Doc :=
  match q with
  | none => db
  | some n => updateFirst (fun d => d.name = some n) f db

/-- Model of `DocDB.find({category, name, filePath})`. -/
def findByCatName (db : List Doc) (cat n : String) : List Doc :=
  db.filter fun d => d.category = cat && d.name = some n

/-- In-place mutation of the first doc found by `findByCatName`. -/
def updateByCatName (db : List Doc) (cat n : String) (f : Doc → Doc) : List Doc :=
  updateFirst (fun d => d.category = cat && d.name = some n) f db

/-- JS `s.replace(/^./, (c) => c.toLowerCase())`. -/
def lowerFirst (s : String) : String :=
  match s.data with
  | [] => s
  | c :: cs => String.mk (c.toLower :: cs)

/-- JS template interpolation of a possibly-undefined value. -/
def optStr (o : Option String) : String := o.getD "undefined"

/-- The named-export import style `\x7bname\x7d`. -/
def braceWrap (s : String) : String := "\x7b" ++ s ++ "\x7d"

/- ## First-pass classification and doc construction -/

/-- The export wrapper kind of an unwrapped declaration. -/
inductive ExpWrap where
  | defaultExport
  | namedExport
deriving DecidableEq, Repr

/-- A node as handed to comment traversal / classification: the (unwrapped)
declaration, its export wrapper if any, and whether it sits in the top-level
program body (`_isTopDepthInBody`, which looks through export wrappers). -/
structure ProcNode where
  decl : JDecl
  wrapper : Option ExpWrap
  topLevel : Bool
deriving DecidableEq, Repr

/-- Embedding of `DocGenerator._decideType` (part_000) for the statement-level
node shapes: the leading tag scan returns a virtual category immediately
(see `decideTypeTagScan`); otherwise the node shape decides, with
`_decideModuleVariableType` inspecting only the first declarator and
reclassifying function/class expression initializers.  A virtual node
(`none`) has no `type`, so only tags can classify it.  The `ClassMethod` /
`ClassProperty` cases act on nested nodes and are embedded separately as
`decideTypeClassCaseNew`. -/
def decideType (tags : List Tag) (node : Option ProcNode) : Option String :=
  match decideTypeTagScan tags with
  | some v => some v
  | none =>
    match node with
    | none => none
    | some pn =>
      match pn.decl with
      | .classDecl _ => if pn.topLevel then some "ModuleClass" else none
      | .funcDecl _ => if pn.topLevel then some "ModuleFunction" else none
      | .varDecl ds =>
        if pn.topLevel then
          match ds.head? with
          | none => none
          | some dr =>
            match dr.init with
            | none => none
            | some (.funcExpr _) => some "ModuleFunction"
            | some .arrowFuncExpr => some "ModuleFunction"
            | some .classExpr => some "ModuleClass"
            | some _ => some "ModuleVariable"
        else none
      | .exprIdent _ => none
      | .exprNew _ => none
      | .otherDecl _ => none

/-- Modelled from the spec: `_findClassLongname` of the doc base classes
(tjsdoc-docs-common, not under src/): the longname of a class declared in the
same module is `<filePath>~<className>` (spec Glossary), and `*` when the
class cannot be resolved. -/
def findClassLongname (body : List JStmt) (fp : String) (className : Option String) : String :=
  match className with
  | some cn => if classDeclarationFind body (some cn) then fp ++ "~" ++ cn else "*"
  | none => "*"

/-- Embedding of `ModuleVariableDoc._$type` (src/src/doc/ModuleVariableDoc.js):
an explicit `@type` tag wins (`super._$type`); otherwise a `NewExpression`
initializer yields the initialized class's longname; other initializers are
sent to the external type guesser, modelled as yielding no type. -/
def moduleVariableTypeRefs (body : List JStmt) (fp : String) (tags : List Tag)
    (ds : List JDeclarator) : Option (List String) :=
  match tags.find? (fun t => t.tagName = "@type") with
  | some t => some [t.tagValue]
  | none =>
    match ds.head? with
    | some dr =>
      match dr.init with
      | some (.newExpr c) => some [findClassLongname body fp (calleeName c)]
      | _ => none
    | none => none

/-- Name extraction per the doc classes under src/src/doc:
`ModuleClassDoc._$name` (the class `id`, or the first declarator of a parent
variable declaration for class expressions), `ModuleVariableDoc._$name`
(first declarator `id.name`) and function names analogously. -/
def docName (pn : ProcNode) : Option String :=
  match pn.decl with
  | .classDecl n => some n
  | .funcDecl n => some n
  | .varDecl ds =>
    match ds.head? with
    | some dr => some dr.idName
    | none => none
  | _ => none

/-- Modelled from the spec: the doc-base `export` field (ModuleDocBase in
tjsdoc-docs-common, not under src/) is true exactly when the declaration is
wrapped by an export node (spec sections 3 and 8). -/
def baseExportFlag (wrapper : Option ExpWrap) : Bool := wrapper.isSome

/-- Modelled from the spec: the doc-base `importStyle` field of first-pass
docs; a directly default-exported declaration has `importStyle = null` (spec
section 8 round-trip property) and unexported declarations carry null as
well; first-pass named inline exports are not exercised by the claims. -/
def baseImportStyle : Option String := none

/-- Modelled from the spec: the doc-base `ignore` field is set from an
`@ignore` tag among the doc's own tags (spec section 4.6). -/
def baseIgnore (tags : List Tag) : Bool := tags.any fun t => t.tagName = "@ignore"

/-- Construction of a doc object for a classified node: the category comes
from the classifier, name and type from the src doc classes, and the base
export/importStyle/ignore fields from the spec-modelled doc base. -/
def createDoc (body : List JStmt) (fp : String) (id moduleID : Nat)
    (tags : List Tag) (pn : ProcNode) (cat : String) : Doc :=
  { docId := id
    moduleID := moduleID
    name := if cat = "VirtualTypedef" ∨ cat = "VirtualExternal" then none else docName pn
    category := cat
    exportFlag := baseExportFlag pn.wrapper
    importStyle := baseImportStyle
    ignore := baseIgnore tags
    typeRefs :=
      if cat = "ModuleVariable" then
        match pn.decl with
        | .varDecl ds => moduleVariableTypeRefs body fp tags ds
        | _ => none
      else none
    description := ""
    tags := tags }

/-- Doc object for a virtual (zero-content) node built for a non-final
comment: only its tags carry information. -/
def createVirtualCommentDoc (id moduleID : Nat) (tags : List Tag) (cat : String) : Doc :=
  { docId := id, moduleID := moduleID, name := none, category := cat,
    exportFlag := false, importStyle := none, ignore := baseIgnore tags,
    typeRefs := none, description := "", tags := tags }

/- ## Comment traversal (`_traverseComments`) -/

/-- The placeholder comment synthesized when no valid doc comments exist:
`\x7b type: CommentBlock, value: * @_undocument \x7d`. -/
def undocComment : JComment := { ctype := "CommentBlock", value := "* @_undocument" }

/-- Processing of one comment inside `_traverseComments`: the last comment is
classified against the real node, earlier comments against a fresh virtual
node; a doc is inserted only when classification succeeds. -/
def traverseOneComment (body : List JStmt) (fp : String) (parse : JComment → List Tag)
    (node : Option ProcNode) (isLast : Bool) (moduleID : Nat)
    (st : List Doc × Nat) (c : JComment) : List Doc × Nat :=
  let tags := parse c
  let nodeForThis := if isLast then node else none
  match decideType tags nodeForThis with
  | some cat =>
    match nodeForThis with
    | some pn => (st.1 ++ [createDoc body fp st.2 moduleID tags pn cat], st.2 + 1)
    | none => (st.1 ++ [createVirtualCommentDoc st.2 moduleID tags cat], st.2 + 1)
  | none => st

/-- The comment loop of `_traverseComments` (`comment === lastComment`
distinguishes the final comment). -/
def traverseCommentList (body : List JStmt) (fp : String) (parse : JComment → List Tag)
    (node : Option ProcNode) (moduleID : Nat) :
    List JComment → List Doc × Nat → List Doc × Nat
  | [], st => st
  | [c], st => traverseOneComment body fp parse node true moduleID st c
  | c :: rest, st =>
    traverseCommentList body fp parse node moduleID rest
      (traverseOneComment body fp parse node false moduleID st c)

/-- Embedding of `DocGenerator._traverseComments` (part_000): filter the raw
comments through `getCommentValue`, synthesize the `@_undocument` placeholder
comment when none survive, then classify each comment, the last one against
the real node. -/
def traverseComments (body : List JStmt) (fp : String) (parse : JComment → List Tag)
    (node : Option ProcNode) (comments : List JComment) (moduleID startId : Nat) :
    List Doc × Nat :=
  let valid := comments.filter fun c => (getCommentValue c).isSome
  let cs := if valid = [] then [undocComment] else valid
  traverseCommentList body fp parse node moduleID cs ([], startId)

/- ## First pass over the module body -/

/-- Mutable traversal state: the DocDB contents, the Pending Export Queue,
the next doc ID of the monotonic counter, and the owning module's doc ID. -/
structure GenState where
  db : List Doc
  queue : List JStmt
  nextId : Nat
  moduleID : Nat
deriving DecidableEq, Repr

/-- Embedding of the first-pass handling of one top-level statement
(`_traverse` / `_push` / `_unwrapExportNodeAndTraverse` at statement level):
a deferred export node goes to the Pending Export Queue and its subtree is
skipped; an export with no declaration is dropped; other statements are
unwrapped (the wrapper's comments merged) and their comments traversed.
Trailing comments, decorators and nested class members lie outside the
statement fragment modelled here. -/
def processStmt (body : List JStmt) (fp : String) (parse : JComment → List Tag)
    (st : GenState) (s : JStmt) : GenState :=
  if isExportSecondPass (classDeclarationFind body) s then
    { st with queue := st.queue ++ [s] }
  else
    match s with
    | .decl d leading =>
      let r := traverseComments body fp parse (some ⟨d, none, true⟩) leading st.moduleID st.nextId
      { st with db := st.db ++ r.1, nextId := r.2 }
    | .exportDefault d leading =>
      let r := traverseComments body fp parse (some ⟨d, some .defaultExport, true⟩) leading
        st.moduleID st.nextId
      { st with db := st.db ++ r.1, nextId := r.2 }
    | .exportNamed none _ _ => st
    | .exportNamed (some d) _ leading =>
      let r := traverseComments body fp parse (some ⟨d, some .namedExport, true⟩) leading
        st.moduleID st.nextId
      { st with db := st.db ++ r.1, nextId := r.2 }

/-- The module file doc inserted by `resetAndTraverse` before traversal. -/
def fileDoc : Doc :=
  { docId := 0, moduleID := 0, name := none, category := "ModuleFile",
    exportFlag := false, importStyle := none, ignore := false,
    typeRefs := none, description := "", tags := [] }

/-- The first pass: insert the file doc, then walk the top-level statements. -/
def firstPass (body : List JStmt) (fp : String) (parse : JComment → List Tag) : GenState :=
  body.foldl (processStmt body fp parse)
    { db := [fileDoc], queue := [], nextId := 1, moduleID := 0 }

/- ## Second pass (`_processExports` and friends) -/

/-- Modelled from the spec: the Virtual Node Synthesizer
(`tjsdoc:system:ast:variable:declaration:new:expression:create`, spec section
4.4, whose implementation is not under src/): fabricate a single-declarator
`let name = new ClassName()` node borrowing the export node's leading
comments. -/
def createVirtualVarNode (varName className : String) (exportLeading : List JComment) :
    JDecl × List JComment :=
  (.varDecl [⟨varName, some (.newExpr (.ident className))⟩], exportLeading)

/-- Embedding of `DocGenerator._updateOrCreateVarDoc` (part_000): synthesize
the virtual variable doc; when a `ModuleVariable` doc of the target name
already exists, append the synthesized description and overwrite its
export/importStyle/type/ignore fields; otherwise insert the synthesized doc
marked exported. -/
def updateOrCreateVarDoc (body : List JStmt) (fp : String) (parse : JComment → List Tag)
    (st : List Doc × Nat) (targetVariableName : String) (targetClassName : Option String)
    (isDefaultExport : Bool) (exportLeading : List JComment) : List Doc × Nat :=
  let v := createVirtualVarNode targetVariableName (optStr targetClassName) exportLeading
  let tags :=
    match v.2.getLast? with
    | some c => parse c
    | none => []
  let virtualVarDoc := createDoc body fp st.2 0 tags ⟨v.1, none, true⟩ "ModuleVariable"
  let nid := st.2 + 1
  let style := if isDefaultExport then targetVariableName else braceWrap targetVariableName
  let tref := fp ++ "~" ++ optStr targetClassName
  if (findByCatName st.1 "ModuleVariable" targetVariableName).length > 0 then
    (updateByCatName st.1 "ModuleVariable" targetVariableName
      (fun doc =>
        { doc with
          description := doc.description ++ "\n" ++ virtualVarDoc.description,
          exportFlag := true, importStyle := some style,
          typeRefs := some [tref], ignore := false }), nid)
  else
    let vdoc : Doc :=
      { virtualVarDoc with
        exportFlag := true
        importStyle := some style
        typeRefs := some [tref] }
    (st.1 ++ [vdoc], nid)

/-- Embedding of `DocGenerator._processDefaultExport` (part_000): derive the
target class / variable names and the pseudo-export flag from the export
declaration, update the class doc and reconcile the companion variable doc,
then run the function-doc and variable-doc updates keyed by
`declaration.name`. -/
def processDefaultExport (body : List JStmt) (fp : String) (parse : JComment → List Tag)
    (st : List Doc × Nat) (d : JDecl) (exportLeading : List JComment) : List Doc × Nat :=
  let tcv : Option String × Option String × Bool :=
    match d with
    | .exprNew c =>
      let cn :=
        match c with
        | .ident n => n
        | .member p => p
        | .otherCallee => ""
      (some cn, some (lowerFirst cn), true)
    | .exprIdent nm =>
      match varNewExprFind body nm with
      | some vd => (varDeclFirstCalleeName vd, some nm, true)
      | none => (some nm, none, false)
    | _ => (none, none, false)
  let targetClassName := tcv.1
  let targetVariableName := tcv.2.1
  let pseudoClassExport := tcv.2.2
  let st1 :=
    if (findByName st.1 targetClassName).length > 0 then
      let db := updateByName st.1 targetClassName fun doc =>
        { doc with importStyle := if pseudoClassExport then none else targetClassName,
                   exportFlag := true, ignore := false }
      match targetVariableName with
      | some v =>
        if v ≠ "" then
          updateOrCreateVarDoc body fp parse (db, st.2) v targetClassName true exportLeading
        else (db, st.2)
      | none => (db, st.2)
    else st
  let declName : Option String :=
    match d with
    | .exprIdent nm => some nm
    | _ => none
  let st2 :=
    if (findByName st1.1 declName).length > 0 then
      (updateByName st1.1 declName (fun doc =>
        { doc with importStyle := declName, exportFlag := true, ignore := false }), st1.2)
    else st1
  if (findByName st2.1 declName).length > 0 then
    (updateByName st2.1 declName (fun doc =>
      { doc with importStyle := declName, exportFlag := true, ignore := false }), st2.2)
  else st2

/-- The inline `VariableDeclaration` branch of `_processNamedExport`: for each
declarator initialized by a `NewExpression`, flag the class doc and reconcile
the companion variable doc (both names must be truthy). -/
def namedExportVarBranch (body : List JStmt) (fp : String) (parse : JComment → List Tag)
    (st : List Doc × Nat) (ds : List JDeclarator) (exportLeading : List JComment) :
    List Doc × Nat :=
  ds.foldl
    (fun acc dr =>
      match dr.init with
      | some (.newExpr c) =>
        let targetClassName := calleeName c
        let targetVariableName := dr.idName
        let acc1 :=
          if (findByName acc.1 targetClassName).length > 0 then
            (updateByName acc.1 targetClassName (fun doc =>
              { doc with exportFlag := true, ignore := false, importStyle := none }), acc.2)
          else acc
        if targetVariableName ≠ "" then
          match targetClassName with
          | some cn =>
            if cn ≠ "" then
              updateOrCreateVarDoc body fp parse acc1 targetVariableName (some cn) false
                exportLeading
            else acc1
          | none => acc1
        else acc1
      | _ => acc)
    st

/-- The specifier loop body of `_processNamedExport`: probe for an
instance-creating variable of the exported name, then run the class, function
and variable doc updates, all keyed by the exported name. -/
def namedExportSpecifier (body : List JStmt) (_fp : String) (_parse : JComment → List Tag)
    (acc : List Doc × Nat) (sp : JSpecifier) : List Doc × Nat :=
  if sp.specType ≠ "ExportSpecifier" then acc
  else
    let found := varNewExprFind body sp.exportedName
    let acc1 :=
      match found with
      | some _ =>
        if (findByName acc.1 (some sp.exportedName)).length > 0 then
          (updateByName acc.1 (some sp.exportedName) (fun doc =>
            { doc with importStyle := some (braceWrap sp.exportedName),
                       exportFlag := true, ignore := false }), acc.2)
        else acc
      | none => acc
    let pseudoClassExport := found.isSome
    let targetClassName : Option String :=
      match found with
      | some vd => varDeclFirstCalleeName vd
      | none => some sp.exportedName
    let acc2 :=
      if (findByName acc1.1 (some sp.exportedName)).length > 0 then
        (updateByName acc1.1 (some sp.exportedName) (fun doc =>
          { doc with importStyle := if pseudoClassExport then none
                       else some (braceWrap (optStr targetClassName)),
                     exportFlag := true, ignore := false }), acc1.2)
      else acc1
    let upd := fun (a : List Doc × Nat) =>
      if (findByName a.1 (some sp.exportedName)).length > 0 then
        (updateByName a.1 (some sp.exportedName) (fun doc =>
          { doc with importStyle := some (braceWrap sp.exportedName),
                     exportFlag := true, ignore := false }), a.2)
      else a
    upd (upd acc2)

/-- Embedding of `DocGenerator._processNamedExport` (part_000): the inline
variable-declaration branch runs first and returns early when there are no
specifiers; otherwise the specifier loop runs. -/
def processNamedExport (body : List JStmt) (fp : String) (parse : JComment → List Tag)
    (st : List Doc × Nat) (dOpt : Option JDecl) (specs : List JSpecifier)
    (exportLeading : List JComment) : List Doc × Nat :=
  match dOpt with
  | some (.varDecl ds) =>
    let st1 := namedExportVarBranch body fp parse st ds exportLeading
    if specs.length = 0 then st1
    else specs.foldl (namedExportSpecifier body fp parse) st1
  | _ => specs.foldl (namedExportSpecifier body fp parse) st

/-- Whether the last leading comment of the export node parses to a tag list
containing `@ignore`: the exact check performed by `_processExports`, which
parses only `leadingComments[leadingComments.length - 1]`. -/
def hasIgnoreLast (parse : JComment → List Tag) (s : JStmt) : Bool :=
  match (stmtLeading s).getLast? with
  | some c => (parse c).any fun t => t.tagName = "@ignore"
  | none => false

/-- Embedding of the loop body of `DocGenerator._processExports` for one
pending export node: skip reconciliation entirely when the `@ignore` check
fires, else dispatch on the export node type. -/
def processExportNode (body : List JStmt) (fp : String) (parse : JComment → List Tag)
    (st : List Doc × Nat) (s : JStmt) : List Doc × Nat :=
  if hasIgnoreLast parse s then st
  else
    match s with
    | .exportDefault d leading => processDefaultExport body fp parse st d leading
    | .exportNamed dOpt specs leading => processNamedExport body fp parse st dOpt specs leading
    | .decl _ _ => st

/-- Embedding of `DocGenerator._processExports`: drain the Pending Export
Queue in deferral order. -/
def processExports (body : List JStmt) (fp : String) (parse : JComment → List Tag)
    (st : List Doc × Nat) (queue : List JStmt) : List Doc × Nat :=
  queue.foldl (processExportNode body fp parse) st

/-- The full two-pass run over a module body: first pass, then the second
pass over the Pending Export Queue. -/
def runModule (body : List JStmt) (fp : String) (parse : JComment → List Tag) : List Doc :=
  let st := firstPass body fp parse
  (processExports body fp parse (st.db, st.nextId) st.queue).1

/-- A concrete instantiation of the external comment-tag parser
(`tjsdoc:system:parser:comment:parse`) for the scenario inputs: a doc comment
containing a single recognized tag parses to exactly that tag. -/
def parseModel (c : JComment) : List Tag :=
  if c.value = "* @_undocument" then [⟨"@_undocument", ""⟩]
  else if c.value = "* @ignore" then [⟨"@ignore", ""⟩]
  else []

/- ## Scenario inputs -/

/-- Module `class Foo {}` followed by `export default new Foo();`. -/
def c2Body : List JStmt :=
  [.decl (.classDecl "Foo") [],
   .exportDefault (.exprNew (.ident "Foo")) []]

/-- Module `export default class Foo {}`. -/
def c4DirectBody : List JStmt :=
  [.exportDefault (.classDecl "Foo") []]

/-- Module `class Foo {}` followed by `export default Foo;`. -/
def c4SeparatedBody : List JStmt :=
  [.decl (.classDecl "Foo") [],
   .exportDefault (.exprIdent "Foo") []]

/-- Module `class Foo {}`, `let foo = new Foo();`, `export \x7bfoo\x7d;`. -/
def c8Body : List JStmt :=
  [.decl (.classDecl "Foo") [],
   .decl (.varDecl [⟨"foo", some (.newExpr (.ident "Foo"))⟩]) [],
   .exportNamed none [⟨"ExportSpecifier", "foo"⟩] []]

/-- A doc comment whose tags are exactly `@ignore` under `parseModel`. -/
def ignoreComment : JComment := ⟨"CommentBlock", "* @ignore"⟩

/-- A doc comment with no recognized tags under `parseModel`. -/
def plainComment : JComment := ⟨"CommentBlock", "* plain"⟩

/-- Module `class Foo {}` followed by `export default Foo;` where the export
statement has two leading doc comments, `@ignore` in the first and none in
the second (last) one. -/
def c6Body : List JStmt :=
  [.decl (.classDecl "Foo") [],
   .exportDefault (.exprIdent "Foo") [ignoreComment, plainComment]]

/-- A deferrable export whose single (hence last) leading comment carries
`@ignore`. -/
def c6IgnoredExport : JStmt := .exportDefault (.exprIdent "Foo") [ignoreComment]

/-- An unclassifiable statement node (a bare `debugger;` statement) with no
comments attached. -/
def c7BadNode : ProcNode := ⟨.otherDecl "DebuggerStatement", none, true⟩

/-- A classifiable node for the undocumented-placeholder property: a
top-level class declaration. -/
def c7GoodNode : ProcNode := ⟨.classDecl "Foo", none, true⟩

/-- A `ClassMethod` node nested in a class-expression ancestor that was never
classified (no Processed-Class Set contains it). -/
def cexMethodNode : MNode := ⟨"ClassMethod", [⟨1, "ClassExpression"⟩]⟩

/-- A `@typedef` tag. -/
def typedefTag : Tag := ⟨"@typedef", "\x7bObject\x7d T"⟩

/-- An `@external` tag. -/
def externalTag : Tag := ⟨"@external", "E"⟩

/-- A per-node processor that fails on node `2`, for the error-policy
witness. -/
def c9Process (n : Nat) : Except String Unit :=
  if n = 2 then .error "boom" else .ok ()

/- ## Theorems -/

/-- C10: the comment-value extractor returns the comment's text if and only
if the node's type is exactly `CommentBlock` and the first character of its
value is `*`; on every other input (line comments, block comments not
starting with `*`, empty values) it returns undefined, filtering the comment
out of doc processing. -/
theorem getCommentValue_filters_doc_comments (c : JComment) :
    getCommentValue c = specCommentValue c := by
  rcases c with ⟨t, v⟩
  rcases v with ⟨data⟩
  by_cases ht : t = "CommentBlock"
  · cases data with
    | nil => simp [getCommentValue, specCommentValue, charAtZero, ht]
    | cons ch rest =>
      by_cases hch : ch = '*'
      · subst hch
        simp [getCommentValue, specCommentValue, charAtZero, ht]
      · have hne : String.mk [ch] ≠ "*" := by
          intro h
          exact hch (by simpa using congrArg String.data h)
        simp [getCommentValue, specCommentValue, charAtZero, ht, hne, hch]
  · simp [getCommentValue, specCommentValue, ht]

/-- C5 counterexample: a tag list containing `@typedef` followed by
`@external` is classified `VirtualTypedef` by the newest generator's
`_decideType` — the scan returns on the first matching tag — whereas the
claimed last-tag-wins rule demands `VirtualExternal` (which is what the older
accumulator variant produces). -/
theorem tagScan_last_tag_does_not_win :
    decideTypeTagScan [typedefTag, externalTag] = some "VirtualTypedef" ∧
    decideType [typedefTag, externalTag] (some c7GoodNode) = some "VirtualTypedef" ∧
    lastVirtualTag [typedefTag, externalTag] = some "VirtualExternal" ∧
    decideTypeTagScanOld [typedefTag, externalTag] = some "VirtualExternal" := by
  refine ⟨by decide, by decide, by decide, by decide⟩

/-- C5 amended: for a tag list containing both `@typedef` and `@external`,
the newest generator's classifier decides by the FIRST such tag in list order
(its scan returns immediately), while the older `DocGenerator.js` /
`DocFactory` accumulator scan decides by the last such tag. -/
theorem tagScan_first_wins_new_last_wins_old (tags : List Tag) :
    decideTypeTagScan tags = firstVirtualTag tags ∧
    decideTypeTagScanOld tags = lastVirtualTag tags := by
  constructor
  · induction tags with
    | nil => rfl
    | cons t rest ih =>
      by_cases h1 : t.tagName = "@typedef"
      · simp [decideTypeTagScan, firstVirtualTag, tagVirtualCat, h1]
      · by_cases h2 : t.tagName = "@external"
        · simp [decideTypeTagScan, firstVirtualTag, tagVirtualCat, h1, h2]
        · simp [decideTypeTagScan, firstVirtualTag, tagVirtualCat, h1, h2, ih]
  · have key : ∀ (ts : List Tag) (acc : Option String),
        ts.foldl tagScanStep acc =
          (match lastVirtualTag ts with
           | some c => some c
           | none => acc) := by
      intro ts
      induction ts with
      | nil => intro acc; rfl
      | cons t rest ih =>
        intro acc
        simp only [List.foldl]
        rw [ih]
        rcases hrest : lastVirtualTag rest with _ | c
        · by_cases h1 : t.tagName = "@typedef"
          · simp [lastVirtualTag, hrest, tagScanStep, tagVirtualCat, h1]
          · by_cases h2 : t.tagName = "@external"
            · simp [lastVirtualTag, hrest, tagScanStep, tagVirtualCat, h1, h2]
            · simp [lastVirtualTag, hrest, tagScanStep, tagVirtualCat, h1, h2]
        · simp [lastVirtualTag, hrest]
    have hk := key tags none
    rw [decideTypeTagScanOld, hk]
    rcases h : lastVirtualTag tags with _ | c <;> simp

/-- C3 counterexample: the newest two-pass generator's classifier accepts a
`ClassMethod` node and produces a doc decision even though the nearest
enclosing class node belongs to no Processed-Class Set (here: the empty
set — the newest generator does not maintain such a set at all), refuting the
claimed "doc object produced only if the enclosing class is in the set". -/
theorem classMethod_accepted_without_processed_class :
    decideTypeClassCaseNew cexMethodNode = some "ClassMethod" ∧
    memberClassInProcessed [] cexMethodNode.ancestors = false := by
  refine ⟨by decide, by decide⟩

/-- C3 amended: in the `DocFactory` / older `DocGenerator.js` classifier a
`ClassMethod` (resp. `ClassProperty`) doc decision is produced if and only if
the nearest enclosing `ClassDeclaration`/`ClassExpression` found by the
upward parent search is a member of the Processed-Class Set, the node being
discarded with a logged warning exactly otherwise; the newest two-pass
generator's classifier instead accepts `ClassMethod` nodes unconditionally
with no processed-class check. -/
theorem classMember_doc_iff_processed_class (processed : List Nat) (n : MNode) :
    ((decideClassMethodDefinitionType processed n).1.isSome = true ↔
      ∃ c, findUp ["ClassDeclaration", "ClassExpression"] n.ancestors = some c ∧
        c.id ∈ processed) ∧
    ((decideClassPropertyType processed n).1.isSome = true ↔
      ∃ c, findUp ["ClassDeclaration", "ClassExpression"] n.ancestors = some c ∧
        c.id ∈ processed) ∧
    ((decideClassMethodDefinitionType processed n).2 =
      !memberClassInProcessed processed n.ancestors) ∧
    ((decideClassPropertyType processed n).2 =
      !memberClassInProcessed processed n.ancestors) ∧
    decideTypeClassCaseNew ⟨"ClassMethod", n.ancestors⟩ = some "ClassMethod" := by
  have hiff : memberClassInProcessed processed n.ancestors = true ↔
      ∃ c, findUp ["ClassDeclaration", "ClassExpression"] n.ancestors = some c ∧
        c.id ∈ processed := by
    unfold memberClassInProcessed
    rcases h : findUp ["ClassDeclaration", "ClassExpression"] n.ancestors with _ | c
    · simp
    · simp
  refine ⟨?_, ?_, ?_, ?_, by simp [decideTypeClassCaseNew]⟩ <;>
    by_cases hm : memberClassInProcessed processed n.ancestors <;>
      simp [decideClassMethodDefinitionType, decideClassPropertyType, hm, ← hiff]

/-- C9: a per-node exception raised during traversal under a `handleError`
value that is neither `log` nor `throw` (including `undefined`, as in the
variant whose `resetAndTraverse` never stores the parameter) is caught at the
per-node boundary and silently discarded: nothing is recorded by the
invalid-code logger, nothing is rethrown, and the traversal visits all
subsequent nodes. -/
theorem unknown_handleError_swallows_errors
    (handleError : Option String) (process : Nat → Except String Unit)
    (nodes : List Nat) (hlog : handleError ≠ some "log")
    (hthrow : handleError ≠ some "throw") :
    traverseNodes handleError process nodes = ⟨nodes, [], none⟩ := by
  induction nodes with
  | nil => rfl
  | cons n rest ih =>
    unfold traverseNodes
    cases hp : process n with
    | ok u => simp [ih]
    | error e => simp [hlog, hthrow, ih]

/-- C9 witness: with `handleError = none` and a processor failing on node 2,
all of `[1, 2, 3]` are visited, the invalid-code log stays empty and no error
propagates. -/
theorem unknown_handleError_swallows_errors_witness :
    (none : Option String) ≠ some "log" ∧ (none : Option String) ≠ some "throw" ∧
    traverseNodes none c9Process [1, 2, 3] = ⟨[1, 2, 3], [], none⟩ :=
  ⟨by decide, by decide,
    unknown_handleError_swallows_errors none c9Process [1, 2, 3]
      (by decide) (by decide)⟩

/-- C1: during the first-pass walk a node is deferred — appended to the
Pending Export Queue with its subtree not traversed — if and only if it is an
`ExportDefaultDeclaration` whose declaration is an `Identifier` or a
`NewExpression`, or an `ExportNamedDeclaration` with at least one specifier,
or an `ExportNamedDeclaration` whose `VariableDeclaration` contains a
declarator initialized by a `NewExpression` whose callee name resolves to a
class declaration of the same module; every other node is processed
immediately. -/
theorem firstPass_defers_iff_spec (classFind : Option String → Bool)
    (queue : List JStmt) (s : JStmt) :
    isExportSecondPass classFind s = specDefer classFind s ∧
    firstPassEnter classFind queue s =
      (if specDefer classFind s then (queue ++ [s], true, false)
       else (queue, false, true)) := by
  have h : isExportSecondPass classFind s = specDefer classFind s := by
    cases s with
    | decl d l => rfl
    | exportDefault d l => cases d <;> rfl
    | exportNamed dOpt specs l =>
      cases specs with
      | nil =>
        cases dOpt with
        | none => rfl
        | some d => cases d <;> rfl
      | cons sp rest => simp [isExportSecondPass, specDefer]
  exact ⟨h, by rw [firstPassEnter, h]⟩

/-- C2: for the module `class Foo {}` followed by `export default new Foo();`
the full two-pass run leaves in the DocDB exactly one ModuleClass doc, for
`Foo`, with export = true and importStyle = null, plus exactly one
synthesized ModuleVariable doc named `foo` (the class name with its first
character lower-cased) whose type references `<filePath>~Foo`, with
export = true and importStyle "foo". -/
theorem export_default_new_instance_docs :
    (runModule c2Body "test.js" parseModel).filter
        (fun d => d.category = "ModuleClass") =
      [{ docId := 1, moduleID := 0, name := some "Foo", category := "ModuleClass",
         exportFlag := true, importStyle := none, ignore := false, typeRefs := none,
         description := "", tags := [⟨"@_undocument", ""⟩] }] ∧
    (runModule c2Body "test.js" parseModel).filter
        (fun d => d.category = "ModuleVariable") =
      [{ docId := 2, moduleID := 0, name := some "foo", category := "ModuleVariable",
         exportFlag := true, importStyle := some "foo", ignore := false,
         typeRefs := some ["test.js~Foo"], description := "", tags := [] }] :=
  ⟨by rfl, by rfl⟩

/-- C4: `export default class Foo {}` and `class Foo {}` followed by
`export default Foo;` both yield a ModuleClass doc named Foo with
export = true, but the direct export has importStyle null while the separated
export has importStyle "Foo" — the pseudo-export distinction makes them
differ. -/
theorem default_export_importStyle_distinction :
    (runModule c4DirectBody "test.js" parseModel).filter
        (fun d => d.category = "ModuleClass") =
      [{ docId := 1, moduleID := 0, name := some "Foo", category := "ModuleClass",
         exportFlag := true, importStyle := none, ignore := false, typeRefs := none,
         description := "", tags := [⟨"@_undocument", ""⟩] }] ∧
    (runModule c4SeparatedBody "test.js" parseModel).filter
        (fun d => d.category = "ModuleClass") =
      [{ docId := 1, moduleID := 0, name := some "Foo", category := "ModuleClass",
         exportFlag := true, importStyle := some "Foo", ignore := false, typeRefs := none,
         description := "", tags := [⟨"@_undocument", ""⟩] }] ∧
    (none : Option String) ≠ some "Foo" :=
  ⟨by rfl, by rfl, by decide⟩

/-- C8: for the module `class Foo {}`, `let foo = new Foo();`,
`export \x7bfoo\x7d;` the full two-pass run gives the ModuleVariable doc for
`foo` export = true, importStyle "\x7bfoo\x7d" and a type referencing the
class Foo, while the class doc is exactly what the first pass produced. -/
theorem named_export_instance_variable_docs :
    (runModule c8Body "test.js" parseModel).filter
        (fun d => d.category = "ModuleVariable") =
      [{ docId := 2, moduleID := 0, name := some "foo", category := "ModuleVariable",
         exportFlag := true, importStyle := some "{foo}", ignore := false,
         typeRefs := some ["test.js~Foo"], description := "",
         tags := [⟨"@_undocument", ""⟩] }] ∧
    (runModule c8Body "test.js" parseModel).filter
        (fun d => d.category = "ModuleClass") =
      (firstPass c8Body "test.js" parseModel).db.filter
        (fun d => d.category = "ModuleClass") :=
  ⟨by rfl, by rfl⟩

/-- C6 counterexample: a deferred export node whose leading comments carry an
`@ignore` tag — here in the first of two leading comments — is still
reconciled, because `_processExports` parses only the LAST leading comment:
the class doc's export and importStyle fields are mutated away from the
values the first pass produced, refuting the claim as stated. -/
theorem ignore_in_earlier_comment_still_reconciled :
    isExportSecondPass (classDeclarationFind c6Body)
        (.exportDefault (.exprIdent "Foo") [ignoreComment, plainComment]) = true ∧
    ([ignoreComment, plainComment].any fun c =>
        (parseModel c).any fun t => t.tagName = "@ignore") = true ∧
    hasIgnoreLast parseModel
        (.exportDefault (.exprIdent "Foo") [ignoreComment, plainComment]) = false ∧
    (firstPass c6Body "test.js" parseModel).db.filter
        (fun d => d.category = "ModuleClass") =
      [{ docId := 1, moduleID := 0, name := some "Foo", category := "ModuleClass",
         exportFlag := false, importStyle := none, ignore := false, typeRefs := none,
         description := "", tags := [⟨"@_undocument", ""⟩] }] ∧
    (runModule c6Body "test.js" parseModel).filter
        (fun d => d.category = "ModuleClass") =
      [{ docId := 1, moduleID := 0, name := some "Foo", category := "ModuleClass",
         exportFlag := true, importStyle := some "Foo", ignore := false, typeRefs := none,
         description := "", tags := [⟨"@_undocument", ""⟩] }] :=
  ⟨by rfl, by rfl, by rfl, by rfl, by rfl⟩

/-- C6 amended: for every deferred export node whose LAST leading comment
parses to a tag list containing `@ignore`, the second pass performs no
reconciliation for that node: the DocDB is left exactly as the first pass
produced it, so every previously inserted doc object keeps all its field
values. -/
theorem ignore_last_comment_skips_reconciliation
    (body : List JStmt) (fp : String) (parse : JComment → List Tag)
    (st : List Doc × Nat) (queue : List JStmt)
    (h : ∀ s ∈ queue, hasIgnoreLast parse s = true) :
    processExports body fp parse st queue = st := by
  induction queue generalizing st with
  | nil => rfl
  | cons s rest ih =>
    have hs : hasIgnoreLast parse s = true := h s (by simp)
    have hstep : processExportNode body fp parse st s = st := by
      unfold processExportNode
      rw [if_pos hs]
    show processExports body fp parse (processExportNode body fp parse st s) rest = st
    rw [hstep]
    exact ih st (fun x hx => h x (List.mem_cons_of_mem s hx))

/-- C6 witness: a singleton queue holding an export whose last (only) leading
comment carries `@ignore` leaves the DocDB untouched. -/
theorem ignore_last_comment_skips_reconciliation_witness :
    hasIgnoreLast parseModel c6IgnoredExport = true ∧
    processExports [] "test.js" parseModel ([fileDoc], 1) [c6IgnoredExport] =
      ([fileDoc], 1) :=
  ⟨by rfl,
    ignore_last_comment_skips_reconciliation [] "test.js" parseModel ([fileDoc], 1)
      [c6IgnoredExport]
      (by
        intro s hs
        rw [List.mem_singleton] at hs
        subst hs
        rfl)⟩

/-- C7 counterexample: a node with no leading comments whose shape the
classifier does not accept (a bare `debugger;` statement) produces ZERO doc
objects from `_traverseComments` — the synthesized `@_undocument` comment is
classified against the node, classification fails, and no doc is inserted —
refuting "exactly one doc object, never zero". -/
theorem undocumented_node_zero_docs :
    (traverseComments [] "test.js" parseModel (some c7BadNode) [] 0 5).1 = [] ∧
    ¬(traverseComments [] "test.js" parseModel (some c7BadNode) [] 0 5).1.length = 1 :=
  ⟨by rfl, by decide⟩

/-- C7 amended: for every node with no leading comments (or none surviving the
doc-comment filter) that the classifier accepts under the synthesized
placeholder comment's tags, exactly one doc object is produced, and it is
built from the `@_undocument` placeholder comment's tag list; nodes the
classifier rejects produce no doc object. -/
theorem undocumented_classifiable_one_doc
    (body : List JStmt) (fp : String) (parse : JComment → List Tag)
    (pn : ProcNode) (comments : List JComment) (moduleID startId : Nat)
    (cat : String)
    (hvalid : comments.filter (fun c => (getCommentValue c).isSome) = [])
    (hclass : decideType (parse undocComment) (some pn) = some cat) :
    traverseComments body fp parse (some pn) comments moduleID startId =
      ([createDoc body fp startId moduleID (parse undocComment) pn cat],
        startId + 1) := by
  unfold traverseComments
  rw [hvalid]
  simp [traverseCommentList, traverseOneComment, hclass]

/-- C7 witness: a top-level class declaration with no comments yields exactly
one doc carrying the `@_undocument` marker tag. -/
theorem undocumented_classifiable_one_doc_witness :
    ([] : List JComment).filter (fun c => (getCommentValue c).isSome) = [] ∧
    decideType (parseModel undocComment) (some c7GoodNode) = some "ModuleClass" ∧
    traverseComments [] "test.js" parseModel (some c7GoodNode) [] 0 7 =
      ([createDoc [] "test.js" 7 0 (parseModel undocComment) c7GoodNode "ModuleClass"],
        8) ∧
    (createDoc [] "test.js" 7 0 (parseModel undocComment) c7GoodNode "ModuleClass").tags =
      [⟨"@_undocument", ""⟩] :=
  ⟨by rfl, by rfl,
    undocumented_classifiable_one_doc [] "test.js" parseModel c7GoodNode [] 0 7
      "ModuleClass" (by rfl) (by rfl),
    by rfl⟩

end Tjsdoc
